import Mathlib

/-!
Verification of `instaseis/source.py`: the geometric coordinate model shared
by `Source`, `ForceSource` and `Receiver`, the strike/dip/rake moment-tensor
conversion, and the source-time-function (sliprate) management routines.

Real-valued trigonometric code (`x`/`y`/`z` projections, strike/dip/rake) is
embedded over `ℝ`; the sliprate routines, which the claims exercise on exact
sample values, are embedded over `ℚ` so that they stay executable.
Machine floats are modelled as exact field arithmetic.
-/

namespace Instaseis

noncomputable section RealGeometry

/-- Model of `np.deg2rad`: degrees to radians, `x * π / 180`. -/
def deg2rad (x : ℝ) : ℝ := x * Real.pi / 180

/-- The geometric base class `SourceOrReceiver.__init__`: stored attributes
`latitude`, `longitude` (degrees) and `depth_in_m` (`None` meaning "at the
reference surface"). -/
structure SourceOrReceiver where
  latitude : ℝ
  longitude : ℝ
  depth_in_m : Option ℝ

/-- Model of `SourceOrReceiver.radius_in_m`: `planet_radius` when depth is `None`,
else `planet_radius - depth_in_m`. -/
def SourceOrReceiver.radius_in_m (p : SourceOrReceiver) (planet_radius : ℝ) : ℝ :=
  match p.depth_in_m with
  | none => planet_radius
  | some d => planet_radius - d

/-- Model of `SourceOrReceiver.x`: `cos(lat)·cos(lon)·radius` (angles converted by
`np.deg2rad`). -/
def SourceOrReceiver.x (p : SourceOrReceiver) (planet_radius : ℝ) : ℝ :=
  Real.cos (deg2rad p.latitude) * Real.cos (deg2rad p.longitude) *
    p.radius_in_m planet_radius

/-- Model of `SourceOrReceiver.y`: `cos(lat)·sin(lon)·radius`. -/
def SourceOrReceiver.y (p : SourceOrReceiver) (planet_radius : ℝ) : ℝ :=
  Real.cos (deg2rad p.latitude) * Real.sin (deg2rad p.longitude) *
    p.radius_in_m planet_radius

/-- Model of `SourceOrReceiver.z`: `sin(lat)·radius`. -/
def SourceOrReceiver.z (p : SourceOrReceiver) (planet_radius : ℝ) : ℝ :=
  Real.sin (deg2rad p.latitude) * p.radius_in_m planet_radius

/-- The moment-tensor source `Source.__init__`: the stored attributes, over a
field `α` (`ℝ` for the trigonometric constructor, `ℚ` for the executable
sliprate routines). `sliprate` is `np.array(sliprate) if sliprate is not
None else None`; `time_shift` and `dt` default to `None` in the code. -/
structure Source (α : Type) where
  latitude : α
  longitude : α
  depth_in_m : Option α
  m_rr : α
  m_tt : α
  m_pp : α
  m_rt : α
  m_rp : α
  m_tp : α
  time_shift : Option α
  sliprate : Option (List α)
  dt : Option α
deriving DecidableEq

/-- Model of `Source.from_strike_dip_rake`: the six r-θ-φ moment-tensor components
from strike/dip/rake (degrees) and scalar moment `M0`, exactly the formulas
of the code (`phi = deg2rad(strike)`, `delta = deg2rad(dip)`,
`lambd = deg2rad(rake)`). -/
def Source.from_strike_dip_rake (latitude longitude : ℝ) (depth_in_m : Option ℝ)
    (strike dip rake M0 : ℝ) (time_shift : Option ℝ) (sliprate : Option (List ℝ))
    (dt : Option ℝ) : Source ℝ :=
  let phi := deg2rad strike
  let delta := deg2rad dip
  let lambd := deg2rad rake
  { latitude := latitude
    longitude := longitude
    depth_in_m := depth_in_m
    m_tt := (- Real.sin delta * Real.cos lambd * Real.sin (2 * phi)
        - Real.sin (2 * delta) * Real.sin phi ^ 2 * Real.sin lambd) * M0
    m_pp := (Real.sin delta * Real.cos lambd * Real.sin (2 * phi)
        - Real.sin (2 * delta) * Real.cos phi ^ 2 * Real.sin lambd) * M0
    m_rr := (Real.sin (2 * delta) * Real.sin lambd) * M0
    m_rp := (- Real.cos phi * Real.sin lambd * Real.cos (2 * delta)
        + Real.cos delta * Real.cos lambd * Real.sin phi) * M0
    m_rt := (- Real.sin lambd * Real.sin phi * Real.cos (2 * delta)
        - Real.cos delta * Real.cos lambd * Real.cos phi) * M0
    m_tp := (- Real.sin delta * Real.cos lambd * Real.cos (2 * phi)
        - Real.sin (2 * delta) * Real.sin (2 * phi) * Real.sin lambd / 2) * M0
    time_shift := time_shift
    sliprate := sliprate
    dt := dt }

end RealGeometry

/-- Model of `np.trapz(y, dx=dx)`: trapezoidal-rule integral,
`Σ dx·(y[i] + y[i+1])/2`; `0` for fewer than two samples. -/
def trapz (y : List ℚ) (dx : ℚ) : ℚ :=
  match y with
  | [] => 0
  | [_] => 0
  | a :: b :: rest => dx * (a + b) / 2 + trapz (b :: rest) dx

/-- Model of `Source.set_sliprate(sliprate, dt, time_shift=None, normalize=True)`:
stores the array (divided elementwise by its trapezoidal integral when
`normalize`), then stores `dt` and `time_shift`. -/
def Source.set_sliprate (s : Source ℚ) (sliprate : List ℚ) (dt : ℚ)
    (time_shift : Option ℚ) (normalize : Bool) : Source ℚ :=
  let sl := if normalize then sliprate.map (fun v => v / trapz sliprate dt)
            else sliprate
  { s with sliprate := some sl, dt := some dt, time_shift := time_shift }

/-- Model of `np.linspace(0, stop, num, endpoint=False)`: the `num` values
`stop·i/num` for `i < num`. -/
def linspace (stop : ℚ) (num : ℕ) : List ℚ :=
  (List.range num).map (fun i : ℕ => stop * (i : ℚ) / (num : ℚ))

/-- Model of `np.interp` (re-exported as `scipy.interp`) at one sample point, on the
zipped `(xp, fp)` series: clamp to `fp[0]` left of `xp[0]`, to the last value
right of `xp[-1]`, linear interpolation on each inner segment.
(`np.interp` raises on an empty `xp`; here the empty case returns `0`, which
no claim exercises.) -/
def interp1 (x : ℚ) : List (ℚ × ℚ) → ℚ
  | [] => 0
  | [(_, y0)] => y0
  | (x0, y0) :: (x1, y1) :: rest =>
    if x ≤ x0 then y0
    else if x ≤ x1 then y0 + (y1 - y0) * (x - x0) / (x1 - x0)
    else interp1 x ((x1, y1) :: rest)

/-- Vectorized `interp(t_new, t_old, fp)` as called by the code. -/
def interp (xs xp fp : List ℚ) : List ℚ :=
  xs.map (fun x => interp1 x (xp.zip fp))

/-- Model of `Source.resample_sliprate(dt, nsamp)`: rebuilds both time axes with
`np.linspace(…, endpoint=False)`, linearly interpolates the stored sliprate
onto the new axis, and stores the new `sliprate` and `dt`. -/
def Source.resample_sliprate (s : Source ℚ) (dt : ℚ) (nsamp : ℕ) : Source ℚ :=
  let sl := s.sliprate.getD []
  let t_new := linspace ((nsamp : ℚ) * dt) nsamp
  let t_old := linspace (s.dt.getD 0 * (sl.length : ℚ)) sl.length
  { s with sliprate := some (interp t_new t_old sl), dt := some dt }

/-- The force source `ForceSource.__init__`: stored attributes. -/
structure ForceSource (α : Type) where
  latitude : α
  longitude : α
  depth_in_m : Option α
  f_r : α
  f_t : α
  f_p : α
deriving DecidableEq

/-- Model of `ForceSource.force_tpr`: `np.array([self.f_t, self.f_p, self.f_r])`. -/
def ForceSource.force_tpr (f : ForceSource ℚ) : List ℚ := [f.f_t, f.f_p, f.f_r]

/-- Model of `ForceSource.force_rtp`: the code returns
`np.array([self.f_t, self.f_p, self.f_r])` — the same ordering as
`force_tpr`, despite the docstring announcing r, θ, φ order. -/
def ForceSource.force_rtp (f : ForceSource ℚ) : List ℚ := [f.f_t, f.f_p, f.f_r]

/-- The receiver `Receiver.__init__` stored attributes; `network` and
`station` are strings after `network or ""` / `station or ""`. -/
structure Receiver where
  latitude : ℚ
  longitude : ℚ
  depth_in_m : Option ℚ
  network : String
  station : String
deriving DecidableEq

/-- Python `x or ""` on an optional string: `None` and the empty string (the
only falsy strings) give `""`, anything else gives the string itself. -/
def orEmpty (x : Option String) : String :=
  match x with
  | none => ""
  | some s => if s = "" then "" else s

/-- Model of `Receiver.__init__(latitude, longitude, network=None, station=None,
depth_in_m=None)`. -/
def Receiver.init (latitude longitude : ℚ) (network station : Option String)
    (depth_in_m : Option ℚ) : Receiver :=
  { latitude := latitude
    longitude := longitude
    depth_in_m := depth_in_m
    network := orEmpty network
    station := orEmpty station }

/-- A value of any of the three concrete `SourceOrReceiver` subclasses, for
stating the semantics of `SourceOrReceiver.__eq__`. -/
inductive SR where
  | source (s : Source ℚ)
  | force (f : ForceSource ℚ)
  | receiver (r : Receiver)
deriving DecidableEq

/-- Truth value obtained when the dict comparison inside
`SourceOrReceiver.__eq__` reaches the `sliprate` entry, for two distinct
instances (each `Source.__init__` stores a fresh `np.array(sliprate)`, so the
identity shortcut of `PyObject_RichCompareBool` never fires between two
distinct sources). `none` models a raised `ValueError`:
- both `None`: `None == None` is `True`;
- one `None` (2014-era numpy): `ndarray == None` is the scalar `False`;
- two arrays of different lengths (2014-era numpy): shape-mismatched
  elementwise `==` collapses to the scalar `False`;
- two arrays of equal length 1: truth of the single elementwise comparison;
- two arrays of equal length 0: `bool` of an empty array is `False`;
- two arrays of equal length ≥ 2: elementwise `==` yields a boolean array
  whose truth test raises `ValueError` — the comparison raises. -/
def ndarrayEqTruth : Option (List ℚ) → Option (List ℚ) → Option Bool
  | none, none => some true
  | none, some _ => some false
  | some _, none => some false
  | some l1, some l2 =>
    if l1.length = l2.length then
      if l1.length = 1 then some (decide (l1 = l2))
      else if l1.length = 0 then some false
      else none
    else some false

/-- Model of `SourceOrReceiver.__eq__` between two distinct instances:
`False` when the concrete types differ, otherwise
`self.__dict__ == other.__dict__` — exact equality of every stored
attribute, except that the `sliprate` entry of a `Source` holds an ndarray,
whose comparison follows `ndarrayEqTruth` and can raise (`none`). CPython's
dict comparison visits entries in unspecified hash order; the non-array
entries are modelled as compared first, which only affects pairs already
unequal in some other attribute (there the program returns `False` or raises
depending on that order; such pairs never compare `True` either way). -/
def SR.eq : SR → SR → Option Bool
  | .source a, .source b =>
    if a.latitude = b.latitude ∧ a.longitude = b.longitude
        ∧ a.depth_in_m = b.depth_in_m ∧ a.m_rr = b.m_rr ∧ a.m_tt = b.m_tt
        ∧ a.m_pp = b.m_pp ∧ a.m_rt = b.m_rt ∧ a.m_rp = b.m_rp
        ∧ a.m_tp = b.m_tp ∧ a.time_shift = b.time_shift ∧ a.dt = b.dt
    then ndarrayEqTruth a.sliprate b.sliprate
    else some false
  | .force a, .force b =>
    some (decide (a.latitude = b.latitude) && decide (a.longitude = b.longitude) &&
      decide (a.depth_in_m = b.depth_in_m) &&
      decide (a.f_r = b.f_r) && decide (a.f_t = b.f_t) && decide (a.f_p = b.f_p))
  | .receiver a, .receiver b =>
    some (decide (a.latitude = b.latitude) && decide (a.longitude = b.longitude) &&
      decide (a.depth_in_m = b.depth_in_m) &&
      decide (a.network = b.network) && decide (a.station = b.station))
  | _, _ => some false

/-- Specification-side definition of the resampling target: the linear
interpolation of the series with values `l` on the time axis `t_old[i] = i·d`,
evaluated at time `t`, clamping any `t` outside `[t_old[0], t_old[n-1]]` to
the nearest boundary value. Written from the spec's words (closed form via
the segment index `⌊t/d⌋`), to be compared with the code's
`linspace`/`interp` pipeline. -/
def linearInterpClamped (l : List ℚ) (d : ℚ) (t : ℚ) : ℚ :=
  if t ≤ 0 then l.getD 0 0
  else if ((l.length : ℚ) - 1) * d ≤ t then l.getD (l.length - 1) 0
  else
    l.getD (⌊t / d⌋).toNat 0 +
      (l.getD ((⌊t / d⌋).toNat + 1) 0 - l.getD (⌊t / d⌋).toNat 0) *
        (t - ((⌊t / d⌋).toNat : ℚ) * d) / d

/-! ### Helper development: the `linspace`/`interp1` pipeline computes
clamped piecewise-linear interpolation. -/

/-- Clamped piecewise-linear interpolation in recursive form, on knots
`0, d, 2d, …`: a stepping stone between `interp1` (which carries the time
axis explicitly) and `linearInterpClamped` (closed form). -/
def interpAt (d : ℚ) : List ℚ → ℚ → ℚ
  | [], _ => 0
  | [y], _ => y
  | y0 :: y1 :: rest, t =>
    if t ≤ 0 then y0
    else if t ≤ d then y0 + (y1 - y0) * t / d
    else interpAt d (y1 :: rest) (t - d)

lemma interp1_zip (d : ℚ) :
    ∀ (l : List ℚ) (k : ℕ) (t : ℚ),
      interp1 t (((List.range' k l.length).map (fun i : ℕ => (i : ℚ) * d)).zip l)
        = interpAt d l (t - (k : ℚ) * d) := by
  intro l
  induction l with
  | nil => intro k t; simp [interp1, interpAt]
  | cons y0 tl ih =>
    intro k t
    cases tl with
    | nil =>
      simp [interp1, interpAt, List.range']
    | cons y1 rest =>
      have ih' := ih (k + 1) t
      simp only [List.length_cons, List.range'_succ, List.map_cons,
        List.zip_cons_cons] at ih' ⊢
      simp only [interp1, interpAt]
      rw [ih']
      have c1 : t ≤ (k : ℚ) * d ↔ t - (k : ℚ) * d ≤ 0 := by
        constructor <;> intro <;> linarith
      have c2 : t ≤ ((k + 1 : ℕ) : ℚ) * d ↔ t - (k : ℚ) * d ≤ d := by
        push_cast
        constructor <;> intro <;> linarith
      have c3 : ((k + 1 : ℕ) : ℚ) * d - (k : ℚ) * d = d := by push_cast; ring
      have c4 : t - ((k + 1 : ℕ) : ℚ) * d = t - (k : ℚ) * d - d := by
        push_cast; ring
      simp only [c1, c2, c3, c4]

lemma clamped_shift (d : ℚ) (hd : 0 < d) (y0 y1 : ℚ) (rest : List ℚ) (t : ℚ)
    (ht : d < t) :
    linearInterpClamped (y0 :: y1 :: rest) d t
      = linearInterpClamped (y1 :: rest) d (t - d) := by
  have h0 : ¬ t ≤ 0 := by linarith
  have h0' : ¬ t - d ≤ 0 := by linarith
  rw [linearInterpClamped, linearInterpClamped, if_neg h0, if_neg h0']
  have hc : (((y0 :: y1 :: rest).length : ℚ) - 1) * d ≤ t
      ↔ (((y1 :: rest).length : ℚ) - 1) * d ≤ t - d := by
    simp only [List.length_cons]
    push_cast
    constructor <;> intro <;> linarith
  simp only [hc]
  by_cases h2 : (((y1 :: rest).length : ℚ) - 1) * d ≤ t - d
  · rw [if_pos h2, if_pos h2]
    simp only [List.length_cons, Nat.add_sub_cancel, List.getD_cons_succ]
  · rw [if_neg h2, if_neg h2]
    have hdne : d ≠ 0 := ne_of_gt hd
    have hdiv : (t - d) / d = t / d - 1 := by field_simp
    have hfl : ⌊(t - d) / d⌋ = ⌊t / d⌋ - 1 := by
      rw [hdiv]
      exact_mod_cast Int.floor_sub_int (t / d) 1
    have hone : (1 : ℚ) ≤ t / d := by
      rw [le_div_iff₀ hd]; linarith
    have hige : (1 : ℤ) ≤ ⌊t / d⌋ := Int.le_floor.mpr (by exact_mod_cast hone)
    rw [hfl]
    have hIt : (⌊t / d⌋).toNat = (⌊t / d⌋ - 1).toNat + 1 := by omega
    rw [hIt, List.getD_cons_succ, List.getD_cons_succ]
    push_cast
    ring

lemma interpAt_eq_clamped (d : ℚ) (hd : 0 < d) :
    ∀ (l : List ℚ) (t : ℚ), interpAt d l t = linearInterpClamped l d t := by
  have hdne : d ≠ 0 := ne_of_gt hd
  intro l
  induction l with
  | nil =>
    intro t
    simp only [interpAt, linearInterpClamped, List.getD_nil, List.length_nil]
    split_ifs <;> ring
  | cons y0 tl ih =>
    intro t
    cases tl with
    | nil =>
      simp only [interpAt, linearInterpClamped, List.length_cons,
        List.length_nil, List.getD_cons_zero]
      split_ifs with h1 h2
      · rfl
      · rfl
      · exfalso
        apply h2
        push_cast
        linarith
    | cons y1 rest =>
      by_cases h0 : t ≤ 0
      · rw [linearInterpClamped, if_pos h0]
        simp only [interpAt, if_pos h0, List.getD_cons_zero]
      · by_cases h1 : t ≤ d
        · have hIA : interpAt d (y0 :: y1 :: rest) t = y0 + (y1 - y0) * t / d := by
            simp only [interpAt, if_neg h0, if_pos h1]
          rw [hIA, linearInterpClamped, if_neg h0]
          have hpos : 0 < t := lt_of_not_ge h0
          by_cases h2 : (((y0 :: y1 :: rest).length : ℚ) - 1) * d ≤ t
          · rw [if_pos h2]
            -- forces t = d and the list to have exactly two entries
            have hlen : (2 : ℚ) ≤ (((y0 :: y1 :: rest).length : ℚ)) := by
              simp only [List.length_cons]
              push_cast
              linarith [Nat.cast_nonneg (α := ℚ) rest.length]
            have hged : d ≤ (((y0 :: y1 :: rest).length : ℚ) - 1) * d := by
              nlinarith
            have htd : t = d := le_antisymm h1 (le_trans hged h2)
            have hlen2 : (((y0 :: y1 :: rest).length : ℚ) - 1) * d ≤ d := by
              rw [htd] at h2; exact h2
            have hlen3 : ((y0 :: y1 :: rest).length : ℚ) ≤ 2 := by nlinarith
            have hrest : rest.length = 0 := by
              simp only [List.length_cons] at hlen3
              push_cast at hlen3
              have := rest.length.cast_nonneg (α := ℚ)
              have h2n : (rest.length : ℚ) ≤ 0 := by linarith
              exact_mod_cast le_antisymm h2n this
            have hrestnil : rest = [] := List.length_eq_zero.mp hrest
            subst hrestnil
            subst htd
            have g1 : (y0 :: y1 :: ([] : List ℚ)).getD
                ((y0 :: y1 :: ([] : List ℚ)).length - 1) 0 = y1 := rfl
            rw [g1, mul_div_assoc, div_self hdne, mul_one]
            ring
          · rw [if_neg h2]
            rcases lt_or_eq_of_le h1 with h3 | h3
            · have hfl : ⌊t / d⌋ = 0 := by
                rw [Int.floor_eq_zero_iff]
                exact ⟨div_nonneg hpos.le hd.le, (div_lt_one hd).mpr h3⟩
              have g0 : (y0 :: y1 :: rest).getD ((0 : ℤ).toNat) 0 = y0 := rfl
              have g1 : (y0 :: y1 :: rest).getD ((0 : ℤ).toNat + 1) 0 = y1 := rfl
              rw [hfl, g0, g1]
              push_cast [Int.toNat_zero]
              ring
            · have hfl : ⌊t / d⌋ = 1 := by
                rw [h3, div_self hdne]
                exact Int.floor_one
              have g1 : (y0 :: y1 :: rest).getD ((1 : ℤ).toNat) 0 = y1 := rfl
              rw [hfl, g1, h3]
              push_cast [Int.toNat_one]
              rw [show d - 1 * d = 0 by ring, mul_zero, zero_div, add_zero,
                mul_div_assoc, div_self hdne, mul_one]
              ring
        · have hIA : interpAt d (y0 :: y1 :: rest) t
              = interpAt d (y1 :: rest) (t - d) := by
            simp only [interpAt, if_neg h0, if_neg h1]
          rw [hIA, ih (t - d), clamped_shift d hd y0 y1 rest t (lt_of_not_ge h1)]

/-- Evaluating `interp1` on the explicit time axis `[0, d, …, (n-1)·d]` is exactly the
clamped piecewise-linear interpolation of the spec. -/
lemma interp1_eq_clamped (d : ℚ) (hd : 0 < d) (l : List ℚ) (t : ℚ) :
    interp1 t (((List.range l.length).map (fun i : ℕ => (i : ℚ) * d)).zip l)
      = linearInterpClamped l d t := by
  rw [List.range_eq_range', interp1_zip d l 0 t, Nat.cast_zero, zero_mul,
    sub_zero, interpAt_eq_clamped d hd]

/-- Values of `np.linspace(0, n·c, n, endpoint=False)` form the axis `[0, c, …, (n-1)·c]`. -/
lemma linspace_eq (c : ℚ) (n : ℕ) :
    linspace ((n : ℚ) * c) n = (List.range n).map (fun i : ℕ => (i : ℚ) * c) := by
  unfold linspace
  apply List.map_congr_left
  intro i hi
  have h : n ≠ 0 := by
    intro h
    subst h
    simp at hi
  have hn : (n : ℚ) ≠ 0 := Nat.cast_ne_zero.mpr h
  field_simp
  ring

/-- The clamped interpolation reproduces the stored samples at the knots. -/
lemma clamped_knot (d : ℚ) (hd : 0 < d) (l : List ℚ) (i : ℕ) (hi : i < l.length) :
    linearInterpClamped l d ((i : ℚ) * d) = l.getD i 0 := by
  rcases Nat.eq_zero_or_pos i with rfl | hipos
  · simp [linearInterpClamped]
  · have hdne : d ≠ 0 := ne_of_gt hd
    have hipos' : (0 : ℚ) < (i : ℚ) := by exact_mod_cast hipos
    have h0 : ¬ ((i : ℚ) * d ≤ 0) := by
      push_neg
      exact mul_pos hipos' hd
    rw [linearInterpClamped, if_neg h0]
    by_cases h2 : ((l.length : ℚ) - 1) * d ≤ (i : ℚ) * d
    · rw [if_pos h2]
      have hle : (l.length : ℚ) - 1 ≤ (i : ℚ) := by
        have := (mul_le_mul_right hd).mp h2
        linarith
      have hieq : i = l.length - 1 := by
        have h1 : (l.length : ℚ) ≤ (i : ℚ) + 1 := by linarith
        have h1' : l.length ≤ i + 1 := by exact_mod_cast h1
        omega
      rw [hieq]
    · rw [if_neg h2]
      have hfl : ⌊((i : ℚ) * d) / d⌋ = (i : ℤ) := by
        rw [mul_div_assoc, div_self hdne, mul_one]
        exact Int.floor_natCast i
      rw [hfl]
      simp [Int.toNat_natCast]

/-- Reading every position of a list back with `getD` reproduces the list. -/
lemma map_getD_range (l : List ℚ) :
    (List.range l.length).map (fun i : ℕ => l.getD i 0) = l := by
  induction l with
  | nil => simp
  | cons y tl ih =>
    rw [List.length_cons, List.range_succ_eq_map, List.map_cons, List.map_map]
    simp only [List.getD_cons_zero, Function.comp_def, Nat.succ_eq_add_one,
      List.getD_cons_succ]
    rw [ih]

/-- Sampling the code's clamped interpolation of `L` back on `L`'s own time
axis reproduces `L`: the kernel of the resampling idempotence claim. -/
lemma interp_self (dt : ℚ) (hdt : 0 < dt) (L : List ℚ) :
    interp (linspace ((L.length : ℚ) * dt) L.length)
      (linspace (dt * (L.length : ℚ)) L.length) L = L := by
  rw [mul_comm dt, linspace_eq, interp, List.map_map]
  have hp : ∀ i ∈ List.range L.length,
      ((fun x => interp1 x (((List.range L.length).map
          (fun j : ℕ => (j : ℚ) * dt)).zip L)) ∘ (fun i : ℕ => (i : ℚ) * dt)) i
        = L.getD i 0 := by
    intro i hi
    simp only [Function.comp_def]
    rw [interp1_eq_clamped dt hdt, clamped_knot dt hdt L i (List.mem_range.mp hi)]
  rw [List.map_congr_left hp, map_getD_range]

/-- Dividing every sample by a constant divides the trapezoidal integral. -/
lemma trapz_map_div (l : List ℚ) (dx c : ℚ) :
    trapz (l.map (fun v => v / c)) dx = trapz l dx / c := by
  induction l with
  | nil => simp [trapz]
  | cons a tl ih =>
    cases tl with
    | nil => simp [trapz]
    | cons b rest =>
      simp only [List.map_cons] at ih ⊢
      simp only [trapz]
      rw [ih]
      ring

/-- A sliprate comparison can return `some true` only when the two stored
sliprates are equal (the converse fails: equal length-`0` or length `≥ 2`
arrays give `False` resp. a raise). -/
lemma ndarrayEqTruth_eq_some_true (o1 o2 : Option (List ℚ))
    (h : ndarrayEqTruth o1 o2 = some true) : o1 = o2 := by
  cases o1 with
  | none =>
    cases o2 with
    | none => rfl
    | some l => simp [ndarrayEqTruth] at h
  | some l1 =>
    cases o2 with
    | none => simp [ndarrayEqTruth] at h
    | some l2 =>
      simp only [ndarrayEqTruth] at h
      split_ifs at h <;> simp_all

/-- Comparing two sources that agree on every attribute other than
`sliprate` reduces `__eq__` to the sliprate comparison. -/
lemma eq_source_of_fields (a b : Source ℚ)
    (hC : a.latitude = b.latitude ∧ a.longitude = b.longitude
      ∧ a.depth_in_m = b.depth_in_m ∧ a.m_rr = b.m_rr ∧ a.m_tt = b.m_tt
      ∧ a.m_pp = b.m_pp ∧ a.m_rt = b.m_rt ∧ a.m_rp = b.m_rp
      ∧ a.m_tp = b.m_tp ∧ a.time_shift = b.time_shift ∧ a.dt = b.dt) :
    SR.eq (SR.source a) (SR.source b) = ndarrayEqTruth a.sliprate b.sliprate := by
  simp only [SR.eq]
  rw [if_pos hC]

/-- Soundness of the modelled `__eq__`: a comparison that returns `True`
relates a pair of the same concrete type with all stored attributes equal. -/
lemma SR.eq_sound : ∀ x y : SR, SR.eq x y = some true → x = y := by
  intro x y h
  cases x <;> cases y
  case source.source a b =>
    simp only [SR.eq] at h
    split_ifs at h with hC
    · have hsl := ndarrayEqTruth_eq_some_true _ _ h
      obtain ⟨h1, h2, h3, h4, h5, h6, h7, h8, h9, h10, h11⟩ := hC
      cases a; cases b
      simp_all
    · simp at h
  case force.force a b =>
    simp only [SR.eq, Option.some.injEq, Bool.and_eq_true,
      decide_eq_true_eq] at h
    cases a; cases b
    simp_all
  case receiver.receiver a b =>
    simp only [SR.eq, Option.some.injEq, Bool.and_eq_true,
      decide_eq_true_eq] at h
    cases a; cases b
    simp_all
  all_goals simp [SR.eq] at h

/-- A concrete moment-tensor source carrying the spec's example sliprate
`[0, 1, 0]` at `dt = 1`. -/
def exampleSource : Source ℚ :=
  ⟨0, 0, none, 0, 0, 0, 0, 0, 0, none, some [0, 1, 0], some 1⟩

/-- A concrete moment-tensor source with no sliprate attached. -/
def plainSource : Source ℚ :=
  ⟨3, 4, none, 0, 0, 0, 0, 0, 0, none, none, none⟩

/-! ### Claim theorems -/

/-- C1: `resample_sliprate(dt_new, nsamp_new)` replaces the sliprate with the
linear interpolation of the old series (time axes `i·dt_old` resp. `i·dt_new`,
half-open) evaluated at each new time point, clamping points outside
`[t_old[0], t_old[n-1]]` to the nearest boundary value; in particular
sliprate `[0,1,0]` at `dt=1` resampled to `dt=0.5, nsamp=5` yields
`[0, 0.5, 1, 0.5, 0]`. -/
theorem resample_sliprate_is_clamped_linear_interp (s : Source ℚ) (l : List ℚ)
    (d : ℚ) (hl : s.sliprate = some l) (hne : l ≠ []) (hd : s.dt = some d)
    (hdpos : 0 < d) (dtn : ℚ) (nsamp : ℕ) :
    (s.resample_sliprate dtn nsamp).sliprate
      = some ((List.range nsamp).map
          (fun i : ℕ => linearInterpClamped l d ((i : ℚ) * dtn))) ∧
    (exampleSource.resample_sliprate (1/2) 5).sliprate
      = some [0, 1/2, 1, 1/2, 0] := by
  constructor
  · simp only [Source.resample_sliprate, hl, hd, Option.getD_some]
    congr 1
    rw [mul_comm d, linspace_eq, linspace_eq, interp, List.map_map]
    apply List.map_congr_left
    intro i _
    simp only [Function.comp_def]
    exact interp1_eq_clamped d hdpos l ((i : ℚ) * dtn)
  · have hr5 : List.range 5 = [0, 1, 2, 3, 4] := rfl
    simp only [Source.resample_sliprate, exampleSource, Option.getD_some,
      List.length_cons, List.length_nil, linspace, hr5, interp,
      List.map_cons, List.map_nil, List.zip_cons_cons, List.zip_nil_right,
      interp1]
    norm_num

theorem resample_sliprate_clamped_witness :
    exampleSource.sliprate = some [0, 1, 0] ∧ ([0, 1, 0] : List ℚ) ≠ [] ∧
    exampleSource.dt = some 1 ∧ (0 : ℚ) < 1 ∧
    ((exampleSource.resample_sliprate (1/2) 5).sliprate
        = some ((List.range 5).map
            (fun i : ℕ => linearInterpClamped [0, 1, 0] 1 ((i : ℚ) * (1/2)))) ∧
      (exampleSource.resample_sliprate (1/2) 5).sliprate
        = some [0, 1/2, 1, 1/2, 0]) :=
  ⟨rfl, by simp, rfl, by norm_num,
    resample_sliprate_is_clamped_linear_interp exampleSource [0, 1, 0] 1 rfl
      (by simp) rfl (by norm_num) (1/2) 5⟩

/-- C2: with `normalize=True`, `set_sliprate` stores the values divided by
their trapezoidal integral over spacing `dt`, so the trapezoidal integral of
the stored sliprate is 1; in particular `[1,1,1,1]` at `dt=1` is stored as
`[1/3, 1/3, 1/3, 1/3]`. -/
theorem set_sliprate_normalize_unit_integral (s : Source ℚ) (values : List ℚ)
    (dt : ℚ) (ts : Option ℚ) (hdt : 0 < dt) (hT : trapz values dt ≠ 0) :
    (s.set_sliprate values dt ts true).sliprate
      = some (values.map (fun v => v / trapz values dt)) ∧
    trapz (values.map (fun v => v / trapz values dt)) dt = 1 ∧
    (s.set_sliprate [1, 1, 1, 1] 1 ts true).sliprate
      = some [1/3, 1/3, 1/3, 1/3] := by
  refine ⟨rfl, ?_, ?_⟩
  · rw [trapz_map_div, div_self hT]
  · simp only [Source.set_sliprate, if_true, List.map_cons, List.map_nil]
    norm_num [trapz]

theorem set_sliprate_normalize_witness :
    (0 : ℚ) < 1 ∧ trapz [1, 1, 1, 1] 1 ≠ 0 ∧
    ((exampleSource.set_sliprate [1, 1, 1, 1] 1 none true).sliprate
        = some (([1, 1, 1, 1] : List ℚ).map
            (fun v => v / trapz [1, 1, 1, 1] 1)) ∧
      trapz (([1, 1, 1, 1] : List ℚ).map
          (fun v => v / trapz [1, 1, 1, 1] 1)) 1 = 1 ∧
      (exampleSource.set_sliprate [1, 1, 1, 1] 1 none true).sliprate
        = some [1/3, 1/3, 1/3, 1/3]) :=
  ⟨by norm_num, by norm_num [trapz],
    set_sliprate_normalize_unit_integral exampleSource [1, 1, 1, 1] 1 none
      (by norm_num) (by norm_num [trapz])⟩

/-- C3: every moment tensor produced by `from_strike_dip_rake` is traceless
(`m_rr + m_tt + m_pp = 0`); in particular `strike=0, dip=90, rake=0, M0=1`
gives `m_rr = 0`. -/
theorem from_strike_dip_rake_traceless (latitude longitude : ℝ)
    (depth : Option ℝ) (strike dip rake M0 : ℝ) (ts : Option ℝ)
    (sl : Option (List ℝ)) (dt : Option ℝ) :
    (Source.from_strike_dip_rake latitude longitude depth strike dip rake M0
        ts sl dt).m_rr
      + (Source.from_strike_dip_rake latitude longitude depth strike dip rake
          M0 ts sl dt).m_tt
      + (Source.from_strike_dip_rake latitude longitude depth strike dip rake
          M0 ts sl dt).m_pp = 0 ∧
    (Source.from_strike_dip_rake 0 0 none 0 90 0 1 none none none).m_rr = 0 := by
  constructor
  · simp only [Source.from_strike_dip_rake]
    have h := Real.sin_sq_add_cos_sq (deg2rad strike)
    linear_combination
      (- Real.sin (2 * deg2rad dip) * Real.sin (deg2rad rake) * M0) * h
  · simp [Source.from_strike_dip_rake, deg2rad]

/-- C4: for every geographic point and planet radius, the Cartesian
projections satisfy `x² + y² + z² = radius²`, and at latitude ±90 both `x`
and `y` vanish. -/
theorem cartesian_on_sphere (lat lon : ℝ) (dep : Option ℝ) (R : ℝ)
    (hR : 0 < R) :
    (SourceOrReceiver.x ⟨lat, lon, dep⟩ R) ^ 2
        + (SourceOrReceiver.y ⟨lat, lon, dep⟩ R) ^ 2
        + (SourceOrReceiver.z ⟨lat, lon, dep⟩ R) ^ 2
      = (SourceOrReceiver.radius_in_m ⟨lat, lon, dep⟩ R) ^ 2 ∧
    (SourceOrReceiver.x ⟨90, lon, dep⟩ R = 0 ∧
      SourceOrReceiver.y ⟨90, lon, dep⟩ R = 0) ∧
    (SourceOrReceiver.x ⟨-90, lon, dep⟩ R = 0 ∧
      SourceOrReceiver.y ⟨-90, lon, dep⟩ R = 0) := by
  have hcos90 : Real.cos (deg2rad 90) = 0 := by
    rw [deg2rad, show (90 : ℝ) * Real.pi / 180 = Real.pi / 2 by ring]
    exact Real.cos_pi_div_two
  have hcosm90 : Real.cos (deg2rad (-90)) = 0 := by
    rw [deg2rad, show (-90 : ℝ) * Real.pi / 180 = -(Real.pi / 2) by ring,
      Real.cos_neg]
    exact Real.cos_pi_div_two
  refine ⟨?_, ⟨?_, ?_⟩, ⟨?_, ?_⟩⟩
  · have ha := Real.sin_sq_add_cos_sq (deg2rad lat)
    have hb := Real.sin_sq_add_cos_sq (deg2rad lon)
    simp only [SourceOrReceiver.x, SourceOrReceiver.y, SourceOrReceiver.z]
    linear_combination
      (Real.cos (deg2rad lat)) ^ 2
          * (SourceOrReceiver.radius_in_m ⟨lat, lon, dep⟩ R) ^ 2 * hb
        + (SourceOrReceiver.radius_in_m ⟨lat, lon, dep⟩ R) ^ 2 * ha
  · simp [SourceOrReceiver.x, hcos90]
  · simp [SourceOrReceiver.y, hcos90]
  · simp [SourceOrReceiver.x, hcosm90]
  · simp [SourceOrReceiver.y, hcosm90]

theorem cartesian_on_sphere_witness :
    (0 : ℝ) < 1 ∧
    ((SourceOrReceiver.x ⟨30, 60, none⟩ 1) ^ 2
        + (SourceOrReceiver.y ⟨30, 60, none⟩ 1) ^ 2
        + (SourceOrReceiver.z ⟨30, 60, none⟩ 1) ^ 2
      = (SourceOrReceiver.radius_in_m ⟨30, 60, none⟩ 1) ^ 2 ∧
    (SourceOrReceiver.x ⟨90, 60, none⟩ 1 = 0 ∧
      SourceOrReceiver.y ⟨90, 60, none⟩ 1 = 0) ∧
    (SourceOrReceiver.x ⟨-90, 60, none⟩ 1 = 0 ∧
      SourceOrReceiver.y ⟨-90, 60, none⟩ 1 = 0)) :=
  ⟨by norm_num, cartesian_on_sphere 30 60 none 1 (by norm_num)⟩

/-- C5 counterexample: two `MomentTensorSource`s built from identical
constructor arguments — including the identical sliprate array `[0,1,0]` of
length `3` — do not compare equal: each instance stores a fresh
`np.array(sliprate)`, so `__dict__ == __dict__` truth-tests the elementwise
ndarray comparison and the modelled `__eq__` raises `ValueError` (`none`)
instead of returning `True`. -/
theorem identical_sliprate_sources_eq_raises :
    SR.eq (SR.source exampleSource) (SR.source exampleSource) = none ∧
    SR.eq (SR.source exampleSource) (SR.source exampleSource) ≠ some true := by
  have h : SR.eq (SR.source exampleSource) (SR.source exampleSource) = none := by
    rw [eq_source_of_fields exampleSource exampleSource
      ⟨rfl, rfl, rfl, rfl, rfl, rfl, rfl, rfl, rfl, rfl, rfl⟩]
    show ndarrayEqTruth (some [0, 1, 0]) (some [0, 1, 0]) = none
    simp only [ndarrayEqTruth]
    norm_num
  exact ⟨h, by rw [h]; simp⟩

/-- C5 (amended): `__eq__` returns `True` only for two objects of the same
concrete type with all stored attributes exactly equal; for `ForceSource`s,
`Receiver`s and sliprate-free `Source`s it returns `True` exactly when all
stored attributes are equal (so identical constructor arguments compare
equal, and changing any single stored field breaks equality); but comparing
two `Source`s that agree on every other attribute and hold sliprate arrays
of equal length `≥ 2` raises `ValueError` instead of returning a result. -/
theorem eq_structural_except_ndarray_truth :
    (∀ x y : SR, SR.eq x y = some true → x = y) ∧
    (∀ a b : Source ℚ, a.sliprate = none → b.sliprate = none →
      (SR.eq (SR.source a) (SR.source b) = some true ↔ a = b)) ∧
    (∀ f g : ForceSource ℚ,
      SR.eq (SR.force f) (SR.force g) = some true ↔ f = g) ∧
    (∀ r q : Receiver,
      SR.eq (SR.receiver r) (SR.receiver q) = some true ↔ r = q) ∧
    (∀ (a : Source ℚ) (l1 l2 : List ℚ), l1.length = l2.length →
      2 ≤ l1.length →
      SR.eq (SR.source { a with sliprate := some l1 })
        (SR.source { a with sliprate := some l2 }) = none) := by
  refine ⟨SR.eq_sound, ?_, ?_, ?_, ?_⟩
  · intro a b ha hb
    constructor
    · intro h
      have hxy := SR.eq_sound _ _ h
      simpa using hxy
    · rintro rfl
      rw [eq_source_of_fields a a
        ⟨rfl, rfl, rfl, rfl, rfl, rfl, rfl, rfl, rfl, rfl, rfl⟩, ha]
      rfl
  · intro f g
    constructor
    · intro h
      have hxy := SR.eq_sound _ _ h
      simpa using hxy
    · rintro rfl
      simp [SR.eq]
  · intro r q
    constructor
    · intro h
      have hxy := SR.eq_sound _ _ h
      simpa using hxy
    · rintro rfl
      simp [SR.eq]
  · intro a l1 l2 hlen h2
    rw [eq_source_of_fields { a with sliprate := some l1 }
      { a with sliprate := some l2 }
      ⟨rfl, rfl, rfl, rfl, rfl, rfl, rfl, rfl, rfl, rfl, rfl⟩]
    show ndarrayEqTruth (some l1) (some l2) = none
    simp only [ndarrayEqTruth]
    rw [if_pos hlen, if_neg (by omega), if_neg (by omega)]

theorem eq_structural_except_ndarray_truth_witness :
    plainSource.sliprate = none ∧
    (SR.eq (SR.source plainSource) (SR.source plainSource) = some true ↔
      plainSource = plainSource) ∧
    ([0, 1, 0] : List ℚ).length = ([5, 6, 7] : List ℚ).length ∧
    2 ≤ ([0, 1, 0] : List ℚ).length ∧
    SR.eq (SR.source { exampleSource with sliprate := some [0, 1, 0] })
      (SR.source { exampleSource with sliprate := some [5, 6, 7] }) = none :=
  ⟨rfl,
    eq_structural_except_ndarray_truth.2.1 plainSource plainSource rfl rfl,
    rfl, by simp,
    eq_structural_except_ndarray_truth.2.2.2.2 exampleSource [0, 1, 0] [5, 6, 7]
      rfl (by simp)⟩

/-- C6: `force_tpr` and `force_rtp` both return the ordering
`[f_t, f_p, f_r]`, so the two views are equal for every instance. -/
theorem force_views_same_order (f : ForceSource ℚ) :
    f.force_tpr = [f.f_t, f.f_p, f.f_r] ∧
    f.force_rtp = [f.f_t, f.f_p, f.f_r] ∧
    f.force_rtp = f.force_tpr :=
  ⟨rfl, rfl, rfl⟩

/-- C7: `resample_sliprate` mutates only `sliprate` and `dt`; `time_shift`,
the coordinates and all six moment-tensor components are unchanged. -/
theorem resample_sliprate_frame (s : Source ℚ) (dt : ℚ) (nsamp : ℕ) :
    (s.resample_sliprate dt nsamp).time_shift = s.time_shift ∧
    (s.resample_sliprate dt nsamp).latitude = s.latitude ∧
    (s.resample_sliprate dt nsamp).longitude = s.longitude ∧
    (s.resample_sliprate dt nsamp).depth_in_m = s.depth_in_m ∧
    (s.resample_sliprate dt nsamp).m_rr = s.m_rr ∧
    (s.resample_sliprate dt nsamp).m_tt = s.m_tt ∧
    (s.resample_sliprate dt nsamp).m_pp = s.m_pp ∧
    (s.resample_sliprate dt nsamp).m_rt = s.m_rt ∧
    (s.resample_sliprate dt nsamp).m_rp = s.m_rp ∧
    (s.resample_sliprate dt nsamp).m_tp = s.m_tp :=
  ⟨rfl, rfl, rfl, rfl, rfl, rfl, rfl, rfl, rfl, rfl⟩

/-- C8: resampling an already-resampled source again with the same `dt` and
`nsamp` is a no-op: the interpolation at its own sample points reproduces
the array (and the whole object). -/
theorem resample_sliprate_idempotent (s : Source ℚ) (l : List ℚ) (d dt : ℚ)
    (nsamp : ℕ) (hl : s.sliprate = some l) (hne : l ≠ []) (hd : s.dt = some d)
    (hdpos : 0 < d) (hdt : 0 < dt) (hn : 0 < nsamp) :
    (s.resample_sliprate dt nsamp).resample_sliprate dt nsamp
      = s.resample_sliprate dt nsamp := by
  simp only [Source.resample_sliprate, Option.getD_some]
  set L := interp (linspace ((nsamp : ℚ) * dt) nsamp)
      (linspace (s.dt.getD 0 * ((s.sliprate.getD []).length : ℚ))
        (s.sliprate.getD []).length) (s.sliprate.getD []) with hL
  have hlen : L.length = nsamp := by simp [hL, interp, linspace]
  rw [← hlen, interp_self dt hdt]

theorem resample_sliprate_idempotent_witness :
    exampleSource.sliprate = some [0, 1, 0] ∧ ([0, 1, 0] : List ℚ) ≠ [] ∧
    exampleSource.dt = some 1 ∧ (0 : ℚ) < 1 ∧ (0 : ℚ) < 1/2 ∧ 0 < 5 ∧
    (exampleSource.resample_sliprate (1/2) 5).resample_sliprate (1/2) 5
      = exampleSource.resample_sliprate (1/2) 5 :=
  ⟨rfl, by simp, rfl, by norm_num, by norm_num, by norm_num,
    resample_sliprate_idempotent exampleSource [0, 1, 0] 1 (1/2) 5 rfl
      (by simp) rfl (by norm_num) (by norm_num) (by norm_num)⟩

/-- C9: a `Receiver` constructed with `None` (or the empty string, the only
falsy string) for `network`/`station` stores the empty string, never `None`:
the stored identifiers always equal the argument's value with `""` as the
default. -/
theorem receiver_ids_default_empty_string (lat lon : ℚ)
    (network station : Option String) (dep : Option ℚ) :
    (Receiver.init lat lon network station dep).network = network.getD "" ∧
    (Receiver.init lat lon network station dep).station = station.getD "" ∧
    (Receiver.init lat lon none none dep).network = "" ∧
    (Receiver.init lat lon none none dep).station = "" ∧
    (Receiver.init lat lon (some "") (some "") dep).network = "" ∧
    (Receiver.init lat lon (some "") (some "") dep).station = "" := by
  refine ⟨?_, ?_, rfl, rfl, rfl, rfl⟩
  · cases network with
    | none => rfl
    | some nm =>
      simp only [Receiver.init, orEmpty, Option.getD_some]
      split_ifs with h
      · rw [h]
      · rfl
  · cases station with
    | none => rfl
    | some st =>
      simp only [Receiver.init, orEmpty, Option.getD_some]
      split_ifs with h
      · rw [h]
      · rfl

/-- C10: `set_sliprate` assigns its `time_shift` argument unconditionally, so
calling it without that argument (Python default `None`) overwrites a
previously stored `time_shift` with `None`. -/
theorem set_sliprate_overwrites_time_shift (s : Source ℚ) (values : List ℚ)
    (dt : ℚ) (ts : Option ℚ) (normalize : Bool) :
    (s.set_sliprate values dt ts normalize).time_shift = ts ∧
    (Source.set_sliprate { s with time_shift := some 5 } values dt none
        normalize).time_shift = none :=
  ⟨rfl, rfl⟩

end Instaseis
